import Mathlib

/-!
Verification of the servo driver (src/src/servo.c, src/include/servo.h) of the
CanSat-Galaxy firmware, a registry of up to MAX_SERVOS hobby servos driven by
hardware PWM slices.

Modelling conventions:
* C unsigned machine integers (uint8_t/uint16_t/uint32_t) are modelled as Nat;
  where the C code narrows a wider value into a uint16_t the model reduces
  modulo 2^16 explicitly.
* The float arithmetic of calculate_pwm_params and angle_to_level is modelled
  over the exact rationals.  On every concrete input appearing in a theorem
  below the single-precision computation of the C code is exact, or its
  rounding error is far too small to move a value across the integer
  boundaries at which the code truncates, so the rational model and the
  compiled code agree there.
* A C cast from float to an unsigned integer type truncates toward zero; when
  the integral part does not fit the destination the compiled code (ARM EABI:
  conversion to a 32-bit integer followed by a 16-bit mask) reduces it modulo
  2^16.  The model writes Int.toNat ∘ Int.floor followed by % 65536 for the
  casts whose argument can be out of the uint16_t range (the operands are
  nonnegative there, so floor agrees with trunc).
* The hardware abstraction calls (pwm_set_enabled, pwm_set_gpio_level,
  pwm_init, gpio_set_function) are recorded in an explicit trace of
  HwAction values; the mutable static array servo_state is passed as an
  explicit List ServoInfo.  The lazy zero-initialisation flag of servo.c is
  dropped: all states considered here descend from the zeroed initial state,
  which is what initialize_servo_state establishes on first access.
-/

namespace CanSatServo

/-- MAX_SERVOS from servo.h. -/
def MAX_SERVOS : Nat := 8

/-- SERVO_PWM_FREQ_HZ from servo.h. -/
def SERVO_PWM_FREQ_HZ : Nat := 50

/-- DEFAULT_SERVO_MIN_PULSE_US from servo.h. -/
def DEFAULT_SERVO_MIN_PULSE_US : Nat := 1000

/-- DEFAULT_SERVO_MAX_PULSE_US from servo.h. -/
def DEFAULT_SERVO_MAX_PULSE_US : Nat := 2000

/-- The servo_info_t struct of servo.c. -/
structure ServoInfo where
  gpio_num : Nat
  slice_num : Nat
  chan_num : Nat
  wrap_val : Nat
  min_pulse_us : Nat
  max_pulse_us : Nat
  is_initialized : Bool
  is_attached : Bool
  deriving Repr, DecidableEq

/-- The all-zero servo_info_t produced by memset in initialize_servo_state. -/
def zeroServo : ServoInfo :=
  { gpio_num := 0, slice_num := 0, chan_num := 0, wrap_val := 0
    min_pulse_us := 0, max_pulse_us := 0
    is_initialized := false, is_attached := false }

/-- The zeroed servo_state array right after initialize_servo_state. -/
def initialState : List ServoInfo := List.replicate MAX_SERVOS zeroServo

/-- find_servo_index of servo.c: index of the first entry that is initialized
and carries the requested GPIO number. -/
def find_servo_index (gpio_num : Nat) : List ServoInfo → Option Nat
  | [] => none
  | s :: rest =>
      if s.is_initialized = true ∧ s.gpio_num = gpio_num then some 0
      else (find_servo_index gpio_num rest).map (· + 1)

/-- find_free_index of servo.c: index of the first entry that is not
initialized. -/
def find_free_index : List ServoInfo → Option Nat
  | [] => none
  | s :: rest =>
      if s.is_initialized = false then some 0
      else (find_free_index rest).map (· + 1)

/-- The ideal clock divider computed on line 74 of servo.c:
sys_clk_hz / (freq_hz * 65536). -/
def ideal_divider (sys_clk_hz freq_hz : Nat) : ℚ :=
  (sys_clk_hz : ℚ) / ((freq_hz : ℚ) * 65536)

/-- MAX_DIVIDER of servo.c: 255 + 15/16. -/
def MAX_DIVIDER : ℚ := 255 + 15 / 16

/-- calculate_pwm_params of servo.c (lines 69-104), with the system clock
passed explicitly in place of the clock_get_hz(clk_sys) query.  Returns
some (wrap_val, clk_div_int, clk_div_frac) on success.  The freq_hz = 0 guard
models the float division by zero: sys/0.0f is +infinity, which exceeds
MAX_DIVIDER and makes the C code return false. -/
def calculate_pwm_params (sys_clk_hz freq_hz : Nat) :
    Option (Nat × Nat × Nat) :=
  if sys_clk_hz = 0 then none
  else if freq_hz = 0 then none
  else
    let divider0 : ℚ := ideal_divider sys_clk_hz freq_hz
    let divider : ℚ := if divider0 < 1 then 1 else divider0
    if MAX_DIVIDER < divider then none
    else
      -- (uint16_t)divider: divider is in [1, 255.9375], so the cast is in
      -- range and truncation is Int.floor.
      let clk_div_int : Nat := (⌊divider⌋).toNat
      -- (uint16_t)((divider - clk_div_int) * 16.0f), in [0, 15].
      let clk_div_frac : Nat := (⌊(divider - (clk_div_int : ℚ)) * 16⌋).toNat
      let effective_divider : ℚ := (clk_div_int : ℚ) + (clk_div_frac : ℚ) / 16
      let wrap_exact : ℚ :=
        (sys_clk_hz : ℚ) / (effective_divider * (freq_hz : ℚ)) - 1
      -- (uint16_t) cast of a float that can exceed 65535: reduce mod 2^16.
      let wrap_val : Nat := (⌊wrap_exact⌋).toNat % 65536
      if wrap_val = 0 ∨ 65535 < wrap_val then
        if wrap_val = 0 then none
        else some (65535, clk_div_int, clk_div_frac)
      else some (wrap_val, clk_div_int, clk_div_frac)

/-- Modelled from the spec (section 4.2, computePwmParameters), whose wrap
recomputation the code does not implement faithfully: the wrap value is
round(systemClockHz / (effectiveDivider * targetFrequencyHz)) - 1, failing
when it is 0 and clamping to 65535 when it would exceed 65535. -/
def computePwmParameters_specRound (sys_clk_hz freq_hz : Nat) :
    Option (Nat × Nat × Nat) :=
  if sys_clk_hz = 0 then none
  else if freq_hz = 0 then none
  else
    let divider0 : ℚ := ideal_divider sys_clk_hz freq_hz
    let divider : ℚ := if divider0 < 1 then 1 else divider0
    if MAX_DIVIDER < divider then none
    else
      let clk_div_int : Nat := (⌊divider⌋).toNat
      let clk_div_frac : Nat := (⌊(divider - (clk_div_int : ℚ)) * 16⌋).toNat
      let effective_divider : ℚ := (clk_div_int : ℚ) + (clk_div_frac : ℚ) / 16
      let wrap_spec : ℤ :=
        round ((sys_clk_hz : ℚ) / (effective_divider * (freq_hz : ℚ))) - 1
      if wrap_spec = 0 then none
      else if 65535 < wrap_spec then some (65535, clk_div_int, clk_div_frac)
      else some (wrap_spec.toNat, clk_div_int, clk_div_frac)

/-- angle_to_level of servo.c (lines 107-128).  The servo argument mirrors the
possibly-null const servo_info_t pointer. -/
def angle_to_level (angle : Nat) (servo : Option ServoInfo) : Nat :=
  match servo with
  | none => 0
  | some s =>
      if s.is_initialized = false then 0
      else
        -- if (angle > 180) angle = 180;
        let a : Nat := if 180 < angle then 180 else angle
        -- pulse_us = min + (angle/180) * (max - min); the uint16_t operands
        -- of the subtraction are promoted to int, so it is exact.
        let pulse_us : ℚ :=
          (s.min_pulse_us : ℚ) +
            ((a : ℚ) / 180) * ((s.max_pulse_us : ℚ) - (s.min_pulse_us : ℚ))
        let period_us : ℚ := 1000000 / (SERVO_PWM_FREQ_HZ : ℚ)
        -- (uint16_t) cast of a float that can exceed 65535: reduce mod 2^16.
        let level : Nat :=
          (⌊pulse_us / period_us * ((s.wrap_val : ℚ) + 1)⌋).toNat % 65536
        if s.wrap_val < level then s.wrap_val else level

/-- Modelled from the spec (section 4.2, angleToLevel): the level computation
exactly as the spec words it, with a rounded (not truncated) tick count:
level = round(pulseUs / periodUs * (wrapValue + 1)), angle clamped to
[0, 180], level clamped to wrapValue. -/
def angleToLevel_specRound (angle minPulseUs maxPulseUs wrapValue : Nat) : Nat :=
  let a : Nat := min angle 180
  let pulseUs : ℚ :=
    (minPulseUs : ℚ) + ((a : ℚ) / 180) * ((maxPulseUs : ℚ) - (minPulseUs : ℚ))
  let periodUs : ℚ := 1000000 / (SERVO_PWM_FREQ_HZ : ℚ)
  min (round (pulseUs / periodUs * ((wrapValue : ℚ) + 1))).toNat wrapValue

/-- The level computation the code actually performs, written independently of
the ServoInfo plumbing: the tick count is truncated toward zero (C cast) and
reduced modulo 2^16 (uint16_t), then clamped to wrapValue. -/
def angleToLevel_trunc (angle minPulseUs maxPulseUs wrapValue : Nat) : Nat :=
  let a : Nat := min angle 180
  let pulseUs : ℚ :=
    (minPulseUs : ℚ) + ((a : ℚ) / 180) * ((maxPulseUs : ℚ) - (minPulseUs : ℚ))
  let periodUs : ℚ := 1000000 / (SERVO_PWM_FREQ_HZ : ℚ)
  min ((⌊pulseUs / periodUs * ((wrapValue : ℚ) + 1)⌋).toNat % 65536) wrapValue

/-- One call into the hardware abstraction layer, as recorded by the model. -/
inductive HwAction where
  | gpioSetFunctionPwm (gpio : Nat)
  | pwmInit (slice wrap divInt divFrac : Nat) (start : Bool)
  | pwmSetEnabled (slice : Nat) (enable : Bool)
  | pwmSetGpioLevel (gpio level : Nat)
  deriving Repr, DecidableEq

/-- Modelled from the spec (section 6, collaborator interface): the vendor
call pwm_gpio_to_slice_num mapping a pin to its PWM slice; on the RP2040 each
slice drives two adjacent pins. -/
def pwm_gpio_to_slice_num (gpio_num : Nat) : Nat := (gpio_num / 2) % 8

/-- Modelled from the spec (section 6, collaborator interface): the vendor
call pwm_gpio_to_channel mapping a pin to channel A (0) or B (1). -/
def pwm_gpio_to_channel (gpio_num : Nat) : Nat := gpio_num % 2

/-- servo_init of servo.c (lines 133-213), with the system clock passed
explicitly.  Returns the C result, the servo_state array after the call and
the trace of hardware calls made. -/
def servo_init (sys_clk_hz gpio_num min_pulse_us max_pulse_us : Nat)
    (st : List ServoInfo) : Bool × List ServoInfo × List HwAction :=
  match find_free_index st with
  | none => (false, st, [])
  | some index =>
      if (find_servo_index gpio_num st).isSome then (false, st, [])
      else if min_pulse_us = 0 ∨ max_pulse_us = 0 ∨ max_pulse_us ≤ min_pulse_us
        then (false, st, [])
      else
        let slice_num := pwm_gpio_to_slice_num gpio_num
        let chan_num := pwm_gpio_to_channel gpio_num
        match calculate_pwm_params sys_clk_hz SERVO_PWM_FREQ_HZ with
        | none => (false, st, [])
        | some (wrap_val, clk_div_int, clk_div_frac) =>
            let servo : ServoInfo :=
              { gpio_num := gpio_num, slice_num := slice_num
                chan_num := chan_num, wrap_val := wrap_val
                min_pulse_us := min_pulse_us, max_pulse_us := max_pulse_us
                is_initialized := true, is_attached := true }
            let initial_level := angle_to_level 0 (some servo)
            (true, st.set index servo,
              [HwAction.gpioSetFunctionPwm gpio_num,
               HwAction.pwmInit slice_num wrap_val clk_div_int clk_div_frac true,
               HwAction.pwmSetGpioLevel gpio_num initial_level])

/-- servo_init_default of servo.c (lines 216-218). -/
def servo_init_default (sys_clk_hz gpio_num : Nat) (st : List ServoInfo) :
    Bool × List ServoInfo × List HwAction :=
  servo_init sys_clk_hz gpio_num DEFAULT_SERVO_MIN_PULSE_US
    DEFAULT_SERVO_MAX_PULSE_US st

/-- servo_set of servo.c (lines 221-252).  The re-attach happens, and is
traced, before the level write, exactly as in the code. -/
def servo_set (gpio_num angle : Nat) (st : List ServoInfo) :
    Bool × List ServoInfo × List HwAction :=
  match find_servo_index gpio_num st with
  | none => (false, st, [])
  | some index =>
      let servo0 := st.getD index zeroServo
      let servo1 : ServoInfo := { servo0 with is_attached := true }
      let level := angle_to_level angle (some servo1)
      (true, st.set index servo1,
        (if servo0.is_attached = false
          then [HwAction.pwmSetEnabled servo0.slice_num true] else []) ++
        [HwAction.pwmSetGpioLevel servo1.gpio_num level])

/-- servo_detach of servo.c (lines 254-282). -/
def servo_detach (gpio_num : Nat) (st : List ServoInfo) :
    Bool × List ServoInfo × List HwAction :=
  match find_servo_index gpio_num st with
  | none => (false, st, [])
  | some index =>
      let servo0 := st.getD index zeroServo
      if servo0.is_attached = false then (true, st, [])
      else
        (true, st.set index { servo0 with is_attached := false },
          [HwAction.pwmSetEnabled servo0.slice_num false])

/-- servo_attach of servo.c (lines 284-314). -/
def servo_attach (gpio_num : Nat) (st : List ServoInfo) :
    Bool × List ServoInfo × List HwAction :=
  match find_servo_index gpio_num st with
  | none => (false, st, [])
  | some index =>
      let servo0 := st.getD index zeroServo
      if servo0.is_attached = true then (true, st, [])
      else
        (true, st.set index { servo0 with is_attached := true },
          [HwAction.pwmSetEnabled servo0.slice_num true])

/-- One invocation of a public library operation, with the arguments the
caller (and for init, the clock) supplies. -/
inductive Op where
  | opInit (sys_clk_hz gpio_num min_pulse_us max_pulse_us : Nat)
  | opInitDefault (sys_clk_hz gpio_num : Nat)
  | opSet (gpio_num angle : Nat)
  | opDetach (gpio_num : Nat)
  | opAttach (gpio_num : Nat)
  deriving Repr, DecidableEq

/-- The servo_state array after one public operation. -/
def applyOp (op : Op) (st : List ServoInfo) : List ServoInfo :=
  match op with
  | .opInit sys g mn mx => (servo_init sys g mn mx st).2.1
  | .opInitDefault sys g => (servo_init_default sys g st).2.1
  | .opSet g a => (servo_set g a st).2.1
  | .opDetach g => (servo_detach g st).2.1
  | .opAttach g => (servo_attach g st).2.1

/-- The servo_state array after a sequence of public operations. -/
def runOps : List Op → List ServoInfo → List ServoInfo
  | [], st => st
  | op :: rest, st => runOps rest (applyOp op st)

/-- A pin is registered when some entry is initialized for it. -/
def registered (gpio_num : Nat) (st : List ServoInfo) : Prop :=
  (find_servo_index gpio_num st).isSome = true

/-- Run a sequence of detach (false) / attach (true) calls on one pin,
collecting the boolean results. -/
def runToggles (gpio_num : Nat) : List Bool → List ServoInfo →
    List Bool × List ServoInfo
  | [], st => ([], st)
  | b :: rest, st =>
      let r := if b then servo_attach gpio_num st else servo_detach gpio_num st
      let rec' := runToggles gpio_num rest r.2.1
      (r.1 :: rec'.1, rec'.2)

/-- The registry invariant of the spec (section 3): the table has the fixed
capacity, and initialized entries carry pairwise distinct pins. -/
def registryInvariant (st : List ServoInfo) : Prop :=
  st.length = MAX_SERVOS ∧
  ∀ i j, i < st.length → j < st.length → i ≠ j →
    (st.getD i zeroServo).is_initialized = true →
    (st.getD j zeroServo).is_initialized = true →
    (st.getD i zeroServo).gpio_num ≠ (st.getD j zeroServo).gpio_num

/-! Helper lemmas. -/

/-- Evaluation helper: Int.toNat of an integer numeral. -/
theorem int_toNat_numeral (n : ℕ) [n.AtLeastTwo] :
    (Int.toNat (no_index (OfNat.ofNat n))) = OfNat.ofNat n := rfl

theorem getD_set_self {st : List ServoInfo} {i : Nat} (h : i < st.length)
    (e : ServoInfo) : (st.set i e).getD i zeroServo = e := by
  rw [List.getD_eq_getElem?_getD, List.getElem?_set_self h]
  rfl

theorem getD_set_ne {st : List ServoInfo} {i j : Nat} (h : i ≠ j)
    (e : ServoInfo) : (st.set i e).getD j zeroServo = st.getD j zeroServo := by
  rw [List.getD_eq_getElem?_getD, List.getElem?_set_ne h,
    ← List.getD_eq_getElem?_getD]

theorem find_servo_index_spec {g : Nat} :
    ∀ {st : List ServoInfo} {i : Nat}, find_servo_index g st = some i →
      i < st.length ∧ (st.getD i zeroServo).is_initialized = true ∧
        (st.getD i zeroServo).gpio_num = g := by
  intro st
  induction st with
  | nil => intro i h; simp [find_servo_index] at h
  | cons s rest ih =>
      intro i h
      rw [find_servo_index] at h
      by_cases hc : s.is_initialized = true ∧ s.gpio_num = g
      · rw [if_pos hc] at h
        obtain rfl : i = 0 := by simpa using h.symm
        simpa using hc
      · rw [if_neg hc] at h
        obtain ⟨i', hi', rfl⟩ := Option.map_eq_some'.mp h
        obtain ⟨h1, h2, h3⟩ := ih hi'
        exact ⟨by simpa using h1, by simpa using h2, by simpa using h3⟩

theorem find_servo_index_isSome_iff {g : Nat} {st : List ServoInfo} :
    (find_servo_index g st).isSome = true ↔
      ∃ i, i < st.length ∧ (st.getD i zeroServo).is_initialized = true ∧
        (st.getD i zeroServo).gpio_num = g := by
  constructor
  · intro h
    obtain ⟨i, hi⟩ := Option.isSome_iff_exists.mp h
    exact ⟨i, find_servo_index_spec hi⟩
  · intro h
    induction st with
    | nil =>
        obtain ⟨i, hi, _⟩ := h
        simp at hi
    | cons s rest ih =>
        rw [find_servo_index]
        by_cases hc : s.is_initialized = true ∧ s.gpio_num = g
        · rw [if_pos hc]; rfl
        · rw [if_neg hc]
          rw [Option.isSome_map']
          apply ih
          obtain ⟨i, hi, h2, h3⟩ := h
          match i with
          | 0 => exact absurd ⟨by simpa using h2, by simpa using h3⟩ hc
          | i' + 1 =>
              exact ⟨i', by simpa using hi, by simpa using h2,
                by simpa using h3⟩

theorem registered_iff {g : Nat} {st : List ServoInfo} :
    registered g st ↔
      ∃ i, i < st.length ∧ (st.getD i zeroServo).is_initialized = true ∧
        (st.getD i zeroServo).gpio_num = g :=
  find_servo_index_isSome_iff

theorem find_free_index_spec :
    ∀ {st : List ServoInfo} {i : Nat}, find_free_index st = some i →
      i < st.length ∧ (st.getD i zeroServo).is_initialized = false := by
  intro st
  induction st with
  | nil => intro i h; simp [find_free_index] at h
  | cons s rest ih =>
      intro i h
      rw [find_free_index] at h
      by_cases hc : s.is_initialized = false
      · rw [if_pos hc] at h
        obtain rfl : i = 0 := by simpa using h.symm
        simpa using hc
      · rw [if_neg hc] at h
        obtain ⟨i', hi', rfl⟩ := Option.map_eq_some'.mp h
        obtain ⟨h1, h2⟩ := ih hi'
        exact ⟨by simpa using h1, by simpa using h2⟩

theorem find_free_index_eq_none_iff {st : List ServoInfo} :
    find_free_index st = none ↔
      ∀ i, i < st.length → (st.getD i zeroServo).is_initialized = true := by
  induction st with
  | nil => simp [find_free_index]
  | cons s rest ih =>
      rw [find_free_index]
      by_cases hc : s.is_initialized = false
      · rw [if_pos hc]
        constructor
        · intro h; exact absurd h (by simp)
        · intro h
          have := h 0 (by simp)
          simp only [List.getD_cons_zero] at this
          rw [this] at hc
          exact absurd hc (by simp)
      · rw [if_neg hc]
        simp only [Option.map_eq_none']
        rw [ih]
        constructor
        · intro h i hi
          match i with
          | 0 => simpa using Bool.not_eq_false _ |>.mp hc
          | i' + 1 =>
              rw [List.getD_cons_succ]
              exact h i' (by simpa using hi)
        · intro h i hi
          have := h (i + 1) (by simpa using hi)
          simpa using this

/-- Setting a slot preserves registration of a pin, provided the slot was
either free or keeps its initialization flag and pin. -/
theorem registered_set {g : Nat} {st : List ServoInfo} {i : Nat}
    {e : ServoInfo} (h : registered g st)
    (hc : (st.getD i zeroServo).is_initialized = false ∨
      (e.is_initialized = (st.getD i zeroServo).is_initialized ∧
        e.gpio_num = (st.getD i zeroServo).gpio_num)) :
    registered g (st.set i e) := by
  rw [registered_iff] at h ⊢
  obtain ⟨j, hj, hInit, hG⟩ := h
  refine ⟨j, ?_, ?_, ?_⟩
  · simpa [List.length_set] using hj
  · by_cases hij : i = j
    · subst hij
      rw [getD_set_self hj]
      rcases hc with hfree | ⟨h1, _⟩
      · rw [hInit] at hfree; exact absurd hfree (by simp)
      · rw [h1, hInit]
    · rw [getD_set_ne hij]; exact hInit
  · by_cases hij : i = j
    · subst hij
      rw [getD_set_self hj]
      rcases hc with hfree | ⟨_, h2⟩
      · rw [hInit] at hfree; exact absurd hfree (by simp)
      · rw [h2, hG]
    · rw [getD_set_ne hij]; exact hG

/-- The state after servo_set: unchanged, or one slot re-attached. -/
theorem servo_set_state (g a : Nat) (st : List ServoInfo) :
    (servo_set g a st).2.1 = st ∨
      ∃ i, find_servo_index g st = some i ∧
        (servo_set g a st).2.1 =
          st.set i { st.getD i zeroServo with is_attached := true } := by
  rw [servo_set]
  cases hf : find_servo_index g st with
  | none => exact Or.inl rfl
  | some i => exact Or.inr ⟨i, rfl, rfl⟩

/-- The state after servo_detach: unchanged, or one slot detached. -/
theorem servo_detach_state (g : Nat) (st : List ServoInfo) :
    (servo_detach g st).2.1 = st ∨
      ∃ i, find_servo_index g st = some i ∧
        (servo_detach g st).2.1 =
          st.set i { st.getD i zeroServo with is_attached := false } := by
  rw [servo_detach]
  cases hf : find_servo_index g st with
  | none => exact Or.inl rfl
  | some i =>
      by_cases ha : (st.getD i zeroServo).is_attached = false
      · simp only [List.getD_eq_getElem?_getD] at ha
        exact Or.inl (by simp [ha])
      · simp only [List.getD_eq_getElem?_getD] at ha
        exact Or.inr ⟨i, rfl, by simp [ha]⟩

/-- The state after servo_attach: unchanged, or one slot attached. -/
theorem servo_attach_state (g : Nat) (st : List ServoInfo) :
    (servo_attach g st).2.1 = st ∨
      ∃ i, find_servo_index g st = some i ∧
        (servo_attach g st).2.1 =
          st.set i { st.getD i zeroServo with is_attached := true } := by
  rw [servo_attach]
  cases hf : find_servo_index g st with
  | none => exact Or.inl rfl
  | some i =>
      by_cases ha : (st.getD i zeroServo).is_attached = true
      · simp only [List.getD_eq_getElem?_getD] at ha
        exact Or.inl (by simp [ha])
      · simp only [List.getD_eq_getElem?_getD] at ha
        exact Or.inr ⟨i, rfl, by simp [ha]⟩

/-- The state after servo_init: unchanged, or a fresh slot filled with an
initialized entry for a pin that was not registered before. -/
theorem servo_init_state (sys g mn mx : Nat) (st : List ServoInfo) :
    (servo_init sys g mn mx st).2.1 = st ∨
      ∃ i servo, find_free_index st = some i ∧
        (servo : ServoInfo).is_initialized = true ∧ servo.gpio_num = g ∧
        ¬ registered g st ∧
        (servo_init sys g mn mx st).2.1 = st.set i servo := by
  rw [servo_init]
  cases hfree : find_free_index st with
  | none => exact Or.inl rfl
  | some i =>
      by_cases hdup : (find_servo_index g st).isSome = true
      · exact Or.inl (by simp [hdup])
      · by_cases hb : mn = 0 ∨ mx = 0 ∨ mx ≤ mn
        · exact Or.inl (by simp [hdup, hb])
        · cases hcalc : calculate_pwm_params sys SERVO_PWM_FREQ_HZ with
          | none => exact Or.inl (by simp [hdup, hb, hcalc])
          | some params =>
              obtain ⟨w, di, df⟩ := params
              refine Or.inr ⟨i,
                { gpio_num := g, slice_num := pwm_gpio_to_slice_num g
                  chan_num := pwm_gpio_to_channel g, wrap_val := w
                  min_pulse_us := mn, max_pulse_us := mx
                  is_initialized := true, is_attached := true },
                rfl, rfl, rfl, fun hreg => hdup hreg, ?_⟩
              simp [hdup, hb, hcalc]

/-- Every public operation preserves registration of every pin: once a pin
is initialized it stays initialized (there is no removal operation). -/
theorem registered_applyOp {g : Nat} (op : Op) {st : List ServoInfo}
    (h : registered g st) : registered g (applyOp op st) := by
  have hset : ∀ g' a, registered g (servo_set g' a st).2.1 := by
    intro g' a
    rcases servo_set_state g' a st with heq | ⟨i, _, heq⟩
    · rw [heq]; exact h
    · rw [heq]; exact registered_set h (Or.inr ⟨rfl, rfl⟩)
  have hdetach : ∀ g', registered g (servo_detach g' st).2.1 := by
    intro g'
    rcases servo_detach_state g' st with heq | ⟨i, _, heq⟩
    · rw [heq]; exact h
    · rw [heq]; exact registered_set h (Or.inr ⟨rfl, rfl⟩)
  have hattach : ∀ g', registered g (servo_attach g' st).2.1 := by
    intro g'
    rcases servo_attach_state g' st with heq | ⟨i, _, heq⟩
    · rw [heq]; exact h
    · rw [heq]; exact registered_set h (Or.inr ⟨rfl, rfl⟩)
  have hinit : ∀ sys g' mn mx, registered g (servo_init sys g' mn mx st).2.1 := by
    intro sys g' mn mx
    rcases servo_init_state sys g' mn mx st with heq | ⟨i, servo, hfree, _, _, _, heq⟩
    · rw [heq]; exact h
    · rw [heq]
      exact registered_set h (Or.inl (find_free_index_spec hfree).2)
  cases op with
  | opInit sys g' mn mx => exact hinit sys g' mn mx
  | opInitDefault sys g' => exact hinit sys g' _ _
  | opSet g' a => exact hset g' a
  | opDetach g' => exact hdetach g'
  | opAttach g' => exact hattach g'

theorem registered_runOps {g : Nat} :
    ∀ (ops : List Op) {st : List ServoInfo}, registered g st →
      registered g (runOps ops st) := by
  intro ops
  induction ops with
  | nil => intro st h; exact h
  | cons op rest ih => intro st h; exact ih (registered_applyOp op h)

/-- Setting a slot to an entry with the same pin and initialization flag
preserves the registry invariant. -/
theorem registryInvariant_set_keep {st : List ServoInfo} {i : Nat}
    {e : ServoInfo} (inv : registryInvariant st)
    (h1 : e.is_initialized = (st.getD i zeroServo).is_initialized)
    (h2 : e.gpio_num = (st.getD i zeroServo).gpio_num) :
    registryInvariant (st.set i e) := by
  obtain ⟨hlen, hdist⟩ := inv
  refine ⟨by simpa [List.length_set] using hlen, ?_⟩
  intro a b ha hb hne hia hib
  rw [List.length_set] at ha hb
  by_cases hai : i = a
  · subst hai
    rw [getD_set_self ha] at hia ⊢
    rw [getD_set_ne (by omega) _] at hib ⊢
    rw [h2]
    exact hdist i b ha hb hne (h1 ▸ hia) hib
  · rw [getD_set_ne hai] at hia ⊢
    by_cases hbi : i = b
    · subst hbi
      rw [getD_set_self hb] at hib ⊢
      rw [h2]
      exact hdist a i ha hb hne hia (h1 ▸ hib)
    · rw [getD_set_ne hbi] at hib ⊢
      exact hdist a b ha hb hne hia hib

/-- Filling any slot with an entry whose pin is not yet registered preserves
the registry invariant. -/
theorem registryInvariant_set_fresh {st : List ServoInfo} {i : Nat}
    {e : ServoInfo} (inv : registryInvariant st)
    (hfresh : ¬ registered e.gpio_num st) :
    registryInvariant (st.set i e) := by
  obtain ⟨hlen, hdist⟩ := inv
  rw [registered_iff] at hfresh
  push_neg at hfresh
  refine ⟨by simpa [List.length_set] using hlen, ?_⟩
  intro a b ha hb hne hia hib
  rw [List.length_set] at ha hb
  by_cases hai : i = a
  · subst hai
    rw [getD_set_self ha] at hia ⊢
    rw [getD_set_ne (by omega) _] at hib ⊢
    exact fun hcontra => hfresh b hb hib hcontra.symm
  · rw [getD_set_ne hai] at hia ⊢
    by_cases hbi : i = b
    · subst hbi
      rw [getD_set_self hb] at hib ⊢
      exact fun hcontra => hfresh a ha hia hcontra
    · rw [getD_set_ne hbi] at hib ⊢
      exact hdist a b ha hb hne hia hib

/-- Every public operation preserves the registry invariant. -/
theorem registryInvariant_applyOp (op : Op) {st : List ServoInfo}
    (inv : registryInvariant st) : registryInvariant (applyOp op st) := by
  have hinit : ∀ sys g mn mx, registryInvariant (servo_init sys g mn mx st).2.1 := by
    intro sys g mn mx
    rcases servo_init_state sys g mn mx st with heq | ⟨i, servo, _, _, hg, hfresh, heq⟩
    · rw [heq]; exact inv
    · rw [heq]
      exact registryInvariant_set_fresh inv (hg ▸ hfresh)
  cases op with
  | opInit sys g mn mx => exact hinit sys g mn mx
  | opInitDefault sys g => exact hinit sys g _ _
  | opSet g a =>
      rcases servo_set_state g a st with heq | ⟨i, _, heq⟩
      · rw [applyOp, heq]; exact inv
      · rw [applyOp, heq]; exact registryInvariant_set_keep inv rfl rfl
  | opDetach g =>
      rcases servo_detach_state g st with heq | ⟨i, _, heq⟩
      · rw [applyOp, heq]; exact inv
      · rw [applyOp, heq]; exact registryInvariant_set_keep inv rfl rfl
  | opAttach g =>
      rcases servo_attach_state g st with heq | ⟨i, _, heq⟩
      · rw [applyOp, heq]; exact inv
      · rw [applyOp, heq]; exact registryInvariant_set_keep inv rfl rfl

/-- servo_init refuses a pin that is already registered. -/
theorem servo_init_fails_of_registered {g : Nat} {st : List ServoInfo}
    (h : registered g st) (sys mn mx : Nat) :
    (servo_init sys g mn mx st).1 = false := by
  rw [servo_init]
  cases hfree : find_free_index st with
  | none => rfl
  | some i => simp [registered] at h; simp [h]

/-- When servo_init fails it returns (false, st, []): the registry is
untouched and no hardware call is made. -/
theorem servo_init_fail_state {sys g mn mx : Nat} {st : List ServoInfo}
    (h : (servo_init sys g mn mx st).1 = false) :
    servo_init sys g mn mx st = (false, st, []) := by
  rw [servo_init] at h ⊢
  cases hfree : find_free_index st with
  | none => rfl
  | some i =>
      rw [hfree] at h
      by_cases hdup : (find_servo_index g st).isSome = true
      · simp [hdup]
      · by_cases hb : mn = 0 ∨ mx = 0 ∨ mx ≤ mn
        · simp [hdup, hb]
        · cases hcalc : calculate_pwm_params sys SERVO_PWM_FREQ_HZ with
          | none => simp [hdup, hb, hcalc]
          | some params =>
              obtain ⟨w, di, df⟩ := params
              rw [hcalc] at h
              simp [hdup, hb] at h

/-- When servo_init succeeds, a free slot was filled with an initialized
entry for the (previously unregistered) pin. -/
theorem servo_init_success_state {sys g mn mx : Nat} {st : List ServoInfo}
    (h : (servo_init sys g mn mx st).1 = true) :
    ∃ i servo, find_free_index st = some i ∧
      (servo : ServoInfo).is_initialized = true ∧ servo.gpio_num = g ∧
      ¬ registered g st ∧
      (servo_init sys g mn mx st).2.1 = st.set i servo := by
  cases hfree : find_free_index st with
  | none => simp [servo_init, hfree] at h
  | some i =>
      by_cases hdup : (find_servo_index g st).isSome = true
      · simp [servo_init, hfree, hdup] at h
      · by_cases hb : mn = 0 ∨ mx = 0 ∨ mx ≤ mn
        · simp [servo_init, hfree, hdup, hb] at h
        · cases hcalc : calculate_pwm_params sys SERVO_PWM_FREQ_HZ with
          | none => simp [servo_init, hfree, hdup, hb, hcalc] at h
          | some params =>
              obtain ⟨w, di, df⟩ := params
              refine ⟨i,
                { gpio_num := g, slice_num := pwm_gpio_to_slice_num g
                  chan_num := pwm_gpio_to_channel g, wrap_val := w
                  min_pulse_us := mn, max_pulse_us := mx
                  is_initialized := true, is_attached := true },
                rfl, rfl, rfl, fun hreg => hdup hreg, ?_⟩
              simp [servo_init, hfree, hdup, hb, hcalc]

/-- When servo_init succeeds, the pin becomes registered. -/
theorem servo_init_success_registered {sys g mn mx : Nat}
    {st : List ServoInfo} (h : (servo_init sys g mn mx st).1 = true) :
    registered g (servo_init sys g mn mx st).2.1 := by
  obtain ⟨i, servo, hfree, hsi, hsg, _, heq⟩ := servo_init_success_state h
  rw [heq, registered_iff]
  obtain ⟨hlt, _⟩ := find_free_index_spec hfree
  exact ⟨i, by simpa [List.length_set] using hlt,
    by rw [getD_set_self hlt]; exact hsi,
    by rw [getD_set_self hlt]; exact hsg⟩

/-- Saturation: all angles of 180 and above produce the same result as 180. -/
theorem angle_to_level_sat {a : Nat} (h : 180 ≤ a) (so : Option ServoInfo) :
    angle_to_level a so = angle_to_level 180 so := by
  cases so with
  | none => rfl
  | some s =>
      have h1 : (if 180 < a then 180 else a) = 180 := by split <;> omega
      simp [angle_to_level, h1]

theorem servo_detach_true_of_registered {g : Nat} {st : List ServoInfo}
    (h : registered g st) : (servo_detach g st).1 = true := by
  obtain ⟨i, hf⟩ := Option.isSome_iff_exists.mp h
  by_cases ha : (st.getD i zeroServo).is_attached = false
  · simp only [List.getD_eq_getElem?_getD] at ha
    simp [servo_detach, hf, ha]
  · simp only [List.getD_eq_getElem?_getD] at ha
    simp [servo_detach, hf, ha]

theorem servo_attach_true_of_registered {g : Nat} {st : List ServoInfo}
    (h : registered g st) : (servo_attach g st).1 = true := by
  obtain ⟨i, hf⟩ := Option.isSome_iff_exists.mp h
  by_cases ha : (st.getD i zeroServo).is_attached = true
  · simp only [List.getD_eq_getElem?_getD] at ha
    simp [servo_attach, hf, ha]
  · simp only [List.getD_eq_getElem?_getD] at ha
    simp [servo_attach, hf, ha]

/-- Any sequence of detach/attach calls on a registered pin only ever
returns true. -/
theorem runToggles_all_true {g : Nat} :
    ∀ (seq : List Bool) (st : List ServoInfo), registered g st →
      ∀ b ∈ (runToggles g seq st).1, b = true := by
  intro seq
  induction seq with
  | nil => intro st _ b hmem; simp [runToggles] at hmem
  | cons x rest ih =>
      intro st hreg b hmem
      rw [runToggles] at hmem
      rcases List.mem_cons.mp hmem with hb | hb
      · rw [hb]
        cases x with
        | false => exact servo_detach_true_of_registered hreg
        | true => exact servo_attach_true_of_registered hreg
      · cases x with
        | false =>
            exact ih _ (registered_applyOp (Op.opDetach g) hreg) b hb
        | true =>
            exact ih _ (registered_applyOp (Op.opAttach g) hreg) b hb

/-! Claim theorems. -/

/-- Claim C3: servo_init returns false if there is no free slot, if the pin
is already initialized (so a second init of the same pin, after any further
sequence of public operations, always fails, since no removal operation
exists), or if the pulse bounds are invalid (min = 0, max = 0 or min >= max);
on any failure the registry state is unchanged and no entry is created. -/
theorem c3_servo_init_failures (sys g mn mx : Nat) (st : List ServoInfo) :
    (find_free_index st = none → servo_init sys g mn mx st = (false, st, [])) ∧
    ((find_servo_index g st).isSome = true →
      servo_init sys g mn mx st = (false, st, [])) ∧
    (mn = 0 ∨ mx = 0 ∨ mx ≤ mn →
      servo_init sys g mn mx st = (false, st, [])) ∧
    ((servo_init sys g mn mx st).1 = false →
      (servo_init sys g mn mx st).2.1 = st) ∧
    ((servo_init sys g mn mx st).1 = true →
      ∀ (ops : List Op) (sys2 mn2 mx2 : Nat),
        (servo_init sys2 g mn2 mx2
          (runOps ops (servo_init sys g mn mx st).2.1)).1 = false) := by
  refine ⟨?_, ?_, ?_, ?_, ?_⟩
  · intro h; simp [servo_init, h]
  · intro h
    cases hfree : find_free_index st with
    | none => simp [servo_init, hfree]
    | some i => simp [servo_init, hfree, h]
  · intro h
    cases hfree : find_free_index st with
    | none => simp [servo_init, hfree]
    | some i =>
        by_cases hdup : (find_servo_index g st).isSome = true
        · simp [servo_init, hfree, hdup]
        · simp [servo_init, hfree, hdup, h]
  · intro h; rw [servo_init_fail_state h]
  · intro h ops sys2 mn2 mx2
    exact servo_init_fails_of_registered
      (registered_runOps ops (servo_init_success_registered h)) sys2 mn2 mx2

/-- Witness for C3: on the zeroed registry, initializing pin 2 at a 125 MHz
clock succeeds, and a second init of pin 2 immediately afterwards fails. -/
theorem c3_servo_init_failures_witness :
    (servo_init 125000000 2 1000 2000 initialState).1 = true ∧
    (servo_init 125000000 2 1000 2000
      (runOps [] (servo_init 125000000 2 1000 2000 initialState).2.1)).1
      = false := by
  have hcalc : calculate_pwm_params 125000000 SERVO_PWM_FREQ_HZ
      = some (36, 38, 2) := by
    rw [calculate_pwm_params]
    norm_num [ideal_divider, MAX_DIVIDER, int_toNat_numeral, SERVO_PWM_FREQ_HZ]
  have hfree : find_free_index initialState = some 0 := by decide
  have hdup : find_servo_index 2 initialState = none := by decide
  have hsucc : (servo_init 125000000 2 1000 2000 initialState).1 = true := by
    simp [servo_init, hfree, hdup, hcalc]
  exact ⟨hsucc,
    (c3_servo_init_failures 125000000 2 1000 2000 initialState).2.2.2.2
      hsucc [] 125000000 1000 2000⟩

/-- Claim C4: the registry invariant (fixed capacity of MAX_SERVOS slots,
pairwise distinct pins among initialized entries) holds in the zeroed initial
state and is preserved by every public operation; once all MAX_SERVOS slots
hold initialized entries, servo_init fails on any pin. -/
theorem c4_registry_invariant_preserved :
    registryInvariant initialState ∧
    (∀ (op : Op) (st : List ServoInfo),
      registryInvariant st → registryInvariant (applyOp op st)) ∧
    (∀ st : List ServoInfo, registryInvariant st →
      List.countP (fun s => s.is_initialized) st = MAX_SERVOS →
      ∀ sys g mn mx, servo_init sys g mn mx st = (false, st, [])) := by
  refine ⟨⟨by simp [initialState], ?_⟩, ?_, ?_⟩
  · intro i j hi hj _ hii _
    exfalso
    rw [initialState, List.length_replicate] at hi
    rw [initialState, List.getD_eq_getElem?_getD, List.getElem?_replicate,
      if_pos hi] at hii
    simp [zeroServo] at hii
  · intro op st inv
    exact registryInvariant_applyOp op inv
  · intro st inv hcount sys g mn mx
    have hlen : st.length = MAX_SERVOS := inv.1
    have hall : ∀ s ∈ st, (fun s : ServoInfo => s.is_initialized) s = true :=
      List.countP_eq_length.mp (by rw [hcount, hlen])
    have hfree : find_free_index st = none := by
      rw [find_free_index_eq_none_iff]
      intro i hi
      have hmem : st.getD i zeroServo ∈ st := by
        rw [List.getD_eq_getElem?_getD, List.getElem?_eq_getElem hi]
        exact List.getElem_mem hi
      exact hall _ hmem
    simp [servo_init, hfree]

/-- Witness for C4: the invariant holds after running one operation on the
zeroed registry. -/
theorem c4_registry_invariant_preserved_witness :
    registryInvariant (applyOp (Op.opSet 2 90) initialState) :=
  c4_registry_invariant_preserved.2.1 (Op.opSet 2 90) initialState
    c4_registry_invariant_preserved.1

/-- Claim C6: servo_set fails exactly when the pin is not found among the
initialized entries; on success the entry ends up attached and the computed
level is written, with the slice re-enabled first when the entry was
detached. -/
theorem c6_servo_set_behavior (g a : Nat) (st : List ServoInfo) :
    ((servo_set g a st).1 = false ↔ find_servo_index g st = none) ∧
    (∀ i, find_servo_index g st = some i →
      (servo_set g a st).1 = true ∧
      ((servo_set g a st).2.1.getD i zeroServo).is_attached = true ∧
      (servo_set g a st).2.2 =
        (if (st.getD i zeroServo).is_attached = false
          then [HwAction.pwmSetEnabled (st.getD i zeroServo).slice_num true]
          else []) ++
        [HwAction.pwmSetGpioLevel
          ({ st.getD i zeroServo with is_attached := true }).gpio_num
          (angle_to_level a
            (some { st.getD i zeroServo with is_attached := true }))]) := by
  constructor
  · cases hf : find_servo_index g st with
    | none => simp [servo_set, hf]
    | some i => simp [servo_set, hf]
  · intro i hf
    obtain ⟨hlt, _, _⟩ := find_servo_index_spec hf
    refine ⟨by simp [servo_set, hf], ?_, ?_⟩
    · have : (servo_set g a st).2.1
          = st.set i { st.getD i zeroServo with is_attached := true } := by
        simp [servo_set, hf]
      rw [this, getD_set_self hlt]
    · simp [servo_set, hf]

/-- Witness for C6: setting pin 2 to 90 degrees on a one-entry registry whose
entry is detached re-enables slice 1 and writes the computed level. -/
theorem c6_servo_set_behavior_witness :
    (servo_set 2 90 [⟨2, 1, 0, 36, 1000, 2000, true, false⟩]).1 = true ∧
    ((servo_set 2 90
        [⟨2, 1, 0, 36, 1000, 2000, true, false⟩]).2.1.getD 0
        zeroServo).is_attached = true :=
  let st0 : List ServoInfo := [⟨2, 1, 0, 36, 1000, 2000, true, false⟩]
  let h := (c6_servo_set_behavior 2 90 st0).2 0 (by decide)
  ⟨h.1, h.2.1⟩

/-- Claim C8: servo_detach and servo_attach fail exactly when the pin is not
found; both are idempotent (detaching a detached pin and attaching an
attached pin return true with no state change and no hardware action), and
any sequence of detach/attach calls on a registered pin never fails. -/
theorem c8_detach_attach_idempotent (g : Nat) (st : List ServoInfo) :
    ((servo_detach g st).1 = false ↔ find_servo_index g st = none) ∧
    ((servo_attach g st).1 = false ↔ find_servo_index g st = none) ∧
    (∀ i, find_servo_index g st = some i →
      ((st.getD i zeroServo).is_attached = false →
        servo_detach g st = (true, st, [])) ∧
      ((st.getD i zeroServo).is_attached = true →
        servo_attach g st = (true, st, []))) ∧
    (registered g st → ∀ seq : List Bool,
      ∀ b ∈ (runToggles g seq st).1, b = true) := by
  refine ⟨?_, ?_, ?_, ?_⟩
  · cases hf : find_servo_index g st with
    | none => simp [servo_detach, hf]
    | some i =>
        by_cases ha : (st.getD i zeroServo).is_attached = false
        · simp only [List.getD_eq_getElem?_getD] at ha
          simp [servo_detach, hf, ha]
        · simp only [List.getD_eq_getElem?_getD] at ha
          simp [servo_detach, hf, ha]
  · cases hf : find_servo_index g st with
    | none => simp [servo_attach, hf]
    | some i =>
        by_cases ha : (st.getD i zeroServo).is_attached = true
        · simp only [List.getD_eq_getElem?_getD] at ha
          simp [servo_attach, hf, ha]
        · simp only [List.getD_eq_getElem?_getD] at ha
          simp [servo_attach, hf, ha]
  · intro i hf
    constructor
    · intro hd
      simp only [List.getD_eq_getElem?_getD] at hd
      simp [servo_detach, hf, hd]
    · intro ha
      simp only [List.getD_eq_getElem?_getD] at ha
      simp [servo_attach, hf, ha]
  · intro hreg seq
    exact runToggles_all_true seq st hreg

/-- Witness for C8: on a one-entry registry, the sequence detach, detach,
attach, attach, detach on pin 2 returns only true. -/
theorem c8_detach_attach_idempotent_witness :
    ∀ b ∈ (runToggles 2 [false, false, true, true, false]
      [⟨2, 1, 0, 36, 1000, 2000, true, true⟩]).1, b = true :=
  (c8_detach_attach_idempotent 2
    [⟨2, 1, 0, 36, 1000, 2000, true, true⟩]).2.2.2
    (show (find_servo_index 2
      [⟨2, 1, 0, 36, 1000, 2000, true, true⟩]).isSome = true by decide)
    [false, false, true, true, false]

/-- Claim C9: servo_attach on an initialized detached pin only re-enables the
slice and sets the is_attached flag: every other field of the entry, and
every other entry, is unchanged, and no PWM level is written. -/
theorem c9_attach_frame (g : Nat) (st : List ServoInfo) (i : Nat)
    (hf : find_servo_index g st = some i)
    (hd : (st.getD i zeroServo).is_attached = false) :
    servo_attach g st =
      (true, st.set i { st.getD i zeroServo with is_attached := true },
        [HwAction.pwmSetEnabled (st.getD i zeroServo).slice_num true]) ∧
    (∀ j, j ≠ i →
      (servo_attach g st).2.1.getD j zeroServo = st.getD j zeroServo) ∧
    ((servo_attach g st).2.1.getD i zeroServo).gpio_num
      = (st.getD i zeroServo).gpio_num ∧
    ((servo_attach g st).2.1.getD i zeroServo).slice_num
      = (st.getD i zeroServo).slice_num ∧
    ((servo_attach g st).2.1.getD i zeroServo).chan_num
      = (st.getD i zeroServo).chan_num ∧
    ((servo_attach g st).2.1.getD i zeroServo).wrap_val
      = (st.getD i zeroServo).wrap_val ∧
    ((servo_attach g st).2.1.getD i zeroServo).min_pulse_us
      = (st.getD i zeroServo).min_pulse_us ∧
    ((servo_attach g st).2.1.getD i zeroServo).max_pulse_us
      = (st.getD i zeroServo).max_pulse_us ∧
    ((servo_attach g st).2.1.getD i zeroServo).is_initialized
      = (st.getD i zeroServo).is_initialized ∧
    ((servo_attach g st).2.1.getD i zeroServo).is_attached = true ∧
    (∀ gp lv, HwAction.pwmSetGpioLevel gp lv ∉ (servo_attach g st).2.2) := by
  obtain ⟨hlt, _, _⟩ := find_servo_index_spec hf
  have heq : servo_attach g st =
      (true, st.set i { st.getD i zeroServo with is_attached := true },
        [HwAction.pwmSetEnabled (st.getD i zeroServo).slice_num true]) := by
    simp only [List.getD_eq_getElem?_getD] at hd
    simp [servo_attach, hf, hd, List.getD_eq_getElem?_getD]
  refine ⟨heq, ?_, ?_⟩
  · intro j hj
    rw [heq]
    exact getD_set_ne (Ne.symm hj) _
  · rw [heq]
    simp [List.getD_eq_getElem?_getD, List.getElem?_set_self hlt]

/-- Witness for C9: attaching detached pin 2 on a one-entry registry. -/
theorem c9_attach_frame_witness :
    servo_attach 2 [⟨2, 1, 0, 36, 1000, 2000, true, false⟩] =
      (true,
        ([⟨2, 1, 0, 36, 1000, 2000, true, false⟩] : List ServoInfo).set 0
          { ([⟨2, 1, 0, 36, 1000, 2000, true, false⟩] :
              List ServoInfo).getD 0 zeroServo with is_attached := true },
        [HwAction.pwmSetEnabled
          (([⟨2, 1, 0, 36, 1000, 2000, true, false⟩] :
            List ServoInfo).getD 0 zeroServo).slice_num true]) :=
  (c9_attach_frame 2 [⟨2, 1, 0, 36, 1000, 2000, true, false⟩] 0
    (by decide) (by decide)).1

/-- Claim C10: servo_set never fails because of the angle: for a registered
pin it returns true for every angle, and every angle of 180 or more produces
exactly the same call as angle 180 (silent saturation). -/
theorem c10_angle_saturation (g a : Nat) (st : List ServoInfo) :
    (registered g st → (servo_set g a st).1 = true) ∧
    (180 ≤ a → servo_set g a st = servo_set g 180 st) := by
  constructor
  · intro hreg
    obtain ⟨i, hf⟩ := Option.isSome_iff_exists.mp hreg
    simp [servo_set, hf]
  · intro ha
    cases hf : find_servo_index g st with
    | none => simp [servo_set, hf]
    | some i => simp [servo_set, hf, angle_to_level_sat ha]

/-- Witness for C10: angle 200 on a registered pin succeeds and acts exactly
like angle 180. -/
theorem c10_angle_saturation_witness :
    (servo_set 2 200 [⟨2, 1, 0, 36, 1000, 2000, true, true⟩]).1 = true ∧
    servo_set 2 200 [⟨2, 1, 0, 36, 1000, 2000, true, true⟩]
      = servo_set 2 180 [⟨2, 1, 0, 36, 1000, 2000, true, true⟩] :=
  ⟨(c10_angle_saturation 2 200 [⟨2, 1, 0, 36, 1000, 2000, true, true⟩]).1
      (show (find_servo_index 2
        [⟨2, 1, 0, 36, 1000, 2000, true, true⟩]).isSome = true by decide),
    (c10_angle_saturation 2 200 [⟨2, 1, 0, 36, 1000, 2000, true, true⟩]).2
      (by decide)⟩

/-- Inside the initialized branch, angle_to_level computes exactly the
truncating clamped formula angleToLevel_trunc. -/
theorem angle_to_level_eq_trunc (a : Nat) (s : ServoInfo)
    (h : s.is_initialized = true) :
    angle_to_level a (some s)
      = angleToLevel_trunc a s.min_pulse_us s.max_pulse_us s.wrap_val := by
  simp only [angle_to_level, angleToLevel_trunc, h, Bool.true_eq_false,
    if_false]
  have hmin : min a 180 = if 180 < a then 180 else a := by
    rcases Nat.lt_or_ge 180 a with hlt | hle
    · rw [if_pos hlt, Nat.min_eq_right (le_of_lt hlt)]
    · rw [if_neg (not_lt.mpr hle), Nat.min_eq_left hle]
  rw [hmin, Nat.min_def]
  split_ifs <;> omega

/-- Bounds for the integer and fractional divider parts produced from a
divider in the hardware range [1, MAX_DIVIDER]. -/
theorem divider_int_frac_bounds (d : ℚ) (h1 : 1 ≤ d)
    (h2 : ¬ MAX_DIVIDER < d) :
    1 ≤ (⌊d⌋).toNat ∧ (⌊d⌋).toNat ≤ 255 ∧
    (⌊(d - ((⌊d⌋).toNat : ℚ)) * 16⌋).toNat ≤ 15 := by
  have hfl0 : (0:ℤ) ≤ ⌊d⌋ := Int.floor_nonneg.mpr (le_trans zero_le_one h1)
  have hfl1 : (1:ℤ) ≤ ⌊d⌋ := Int.le_floor.mpr (by exact_mod_cast h1)
  have hlt : d < 256 := lt_of_le_of_lt (not_lt.mp h2) (by norm_num [MAX_DIVIDER])
  have hfl2 : ⌊d⌋ ≤ 255 := by
    have : ⌊d⌋ < 256 := Int.floor_lt.mpr (by exact_mod_cast hlt)
    omega
  have hcast : (((⌊d⌋).toNat : ℕ) : ℚ) = ((⌊d⌋ : ℤ) : ℚ) := by
    exact_mod_cast congrArg (Int.cast : ℤ → ℚ) (Int.toNat_of_nonneg hfl0)
  refine ⟨by omega, by omega, ?_⟩
  have hfr1 : d - (⌊d⌋ : ℚ) < 1 := by
    have := Int.lt_floor_add_one d
    linarith
  have hflt : ⌊(d - ((⌊d⌋).toNat : ℚ)) * 16⌋ < 16 := by
    rw [hcast]
    apply Int.floor_lt.mpr
    push_cast
    nlinarith
  omega

/-- Shape of a successful calculate_pwm_params: the divider parts come from
the clamped ideal divider, which passed the MAX_DIVIDER check. -/
theorem calculate_pwm_params_success_shape {s f w di df : Nat}
    (h : calculate_pwm_params s f = some (w, di, df)) :
    s ≠ 0 ∧ f ≠ 0 ∧
    ¬ MAX_DIVIDER < (if ideal_divider s f < 1 then 1 else ideal_divider s f) ∧
    di = (⌊(if ideal_divider s f < 1 then (1:ℚ) else ideal_divider s f)⌋).toNat ∧
    df = (⌊((if ideal_divider s f < 1 then (1:ℚ) else ideal_divider s f)
      - ((⌊(if ideal_divider s f < 1 then (1:ℚ)
            else ideal_divider s f)⌋).toNat : ℚ)) * 16⌋).toNat := by
  by_cases hs : s = 0
  · simp [calculate_pwm_params, hs] at h
  by_cases hf : f = 0
  · simp [calculate_pwm_params, hs, hf] at h
  by_cases hmax : MAX_DIVIDER
      < (if ideal_divider s f < 1 then 1 else ideal_divider s f)
  · simp [calculate_pwm_params, hs, hf, hmax] at h
  refine ⟨hs, hf, hmax, ?_⟩
  simp only [calculate_pwm_params, hs, hf, hmax, if_false] at h
  split_ifs at h ⊢ <;> simp at h ⊢ <;> omega

/-- Monotonicity of the truncating level formula for calibrations whose
maximal pulse fits strictly inside the 20000 us period. -/
theorem angleToLevel_trunc_mono {mn mx wrap : Nat} (hrange : mn < mx)
    (hmax : mx < 20000) (hwrap : wrap ≤ 65535) {a1 a2 : Nat} (h12 : a1 ≤ a2) :
    angleToLevel_trunc a1 mn mx wrap ≤ angleToLevel_trunc a2 mn mx wrap := by
  have hper : (1000000 : ℚ) / ((SERVO_PWM_FREQ_HZ : ℕ) : ℚ) = 20000 := by
    norm_num [SERVO_PWM_FREQ_HZ]
  simp only [angleToLevel_trunc, hper]
  have hQd : (0:ℚ) ≤ (mx:ℚ) - (mn:ℚ) := by
    have : (mn:ℚ) ≤ (mx:ℚ) := by exact_mod_cast le_of_lt hrange
    linarith
  have hpulse_le : ∀ a : Nat,
      (mn:ℚ) + (((min a 180 : Nat):ℚ)/180) * ((mx:ℚ)-(mn:ℚ)) ≤ (mx:ℚ) := by
    intro a
    have h1 : ((min a 180 : Nat):ℚ) ≤ 180 := by
      exact_mod_cast Nat.min_le_right a 180
    have h2 : ((min a 180 : Nat):ℚ)/180 ≤ 1 := by
      rw [div_le_one (by norm_num)]; exact h1
    nlinarith
  have hx_lt : ∀ a : Nat,
      ((mn:ℚ) + (((min a 180 : Nat):ℚ)/180) * ((mx:ℚ)-(mn:ℚ))) / 20000
        * ((wrap:ℚ)+1) < (wrap:ℚ)+1 := by
    intro a
    have hratio : ((mn:ℚ) + (((min a 180 : Nat):ℚ)/180) * ((mx:ℚ)-(mn:ℚ)))
        / 20000 < 1 := by
      rw [div_lt_one (by norm_num)]
      calc (mn:ℚ) + (((min a 180 : Nat):ℚ)/180) * ((mx:ℚ)-(mn:ℚ))
          ≤ (mx:ℚ) := hpulse_le a
        _ < 20000 := by exact_mod_cast hmax
    have hwpos : (0:ℚ) < (wrap:ℚ)+1 := by positivity
    calc ((mn:ℚ) + (((min a 180 : Nat):ℚ)/180) * ((mx:ℚ)-(mn:ℚ))) / 20000
          * ((wrap:ℚ)+1) < 1 * ((wrap:ℚ)+1) :=
        mul_lt_mul_of_pos_right hratio hwpos
      _ = (wrap:ℚ)+1 := one_mul _
  have hfloor_le : ∀ a : Nat,
      (⌊((mn:ℚ) + (((min a 180 : Nat):ℚ)/180) * ((mx:ℚ)-(mn:ℚ))) / 20000
        * ((wrap:ℚ)+1)⌋) ≤ (wrap : ℤ) := by
    intro a
    have hlt2 : (⌊((mn:ℚ) + (((min a 180 : Nat):ℚ)/180) * ((mx:ℚ)-(mn:ℚ)))
        / 20000 * ((wrap:ℚ)+1)⌋) < (wrap : ℤ) + 1 := by
      apply Int.floor_lt.mpr
      have h3 := hx_lt a
      push_cast at h3 ⊢
      exact h3
    omega
  have hmono : (⌊((mn:ℚ) + (((min a1 180 : Nat):ℚ)/180) * ((mx:ℚ)-(mn:ℚ)))
        / 20000 * ((wrap:ℚ)+1)⌋)
      ≤ (⌊((mn:ℚ) + (((min a2 180 : Nat):ℚ)/180) * ((mx:ℚ)-(mn:ℚ))) / 20000
        * ((wrap:ℚ)+1)⌋) := by
    apply Int.floor_le_floor
    have hm : ((min a1 180 : Nat):ℚ) ≤ ((min a2 180 : Nat):ℚ) := by
      exact_mod_cast min_le_min h12 (le_refl 180)
    have hwnn : (0:ℚ) ≤ (wrap:ℚ)+1 := by positivity
    apply mul_le_mul_of_nonneg_right _ hwnn
    apply (div_le_div_iff_of_pos_right (by norm_num : (0:ℚ) < 20000)).mpr
    have : ((min a1 180 : Nat):ℚ)/180 ≤ ((min a2 180 : Nat):ℚ)/180 := by
      apply (div_le_div_iff_of_pos_right (by norm_num : (0:ℚ) < 180)).mpr hm
    nlinarith
  have hb1 := hfloor_le a1
  have hb2 := hfloor_le a2
  omega

/-- Claim C1 (code bug): at the default RP2040 clock of 125 MHz and the 50 Hz
servo frequency, the spec formula round(sys / (effDivider * freq)) - 1,
clamped to 65535, yields 65535, but calculate_pwm_params returns 36: the
(uint16_t) cast truncates trunc(65573.77 - 1) = 65572 and reduces it modulo
2^16, so the greater-than-65535 clamp branch of the code can never fire. -/
theorem c1_wrap_value_divergence :
    calculate_pwm_params 125000000 50 = some (36, 38, 2) ∧
    computePwmParameters_specRound 125000000 50 = some (65535, 38, 2) := by
  constructor
  · rw [calculate_pwm_params]
    norm_num [ideal_divider, MAX_DIVIDER, int_toNat_numeral]
  · rw [computePwmParameters_specRound]
    norm_num [ideal_divider, MAX_DIVIDER, round_eq, int_toNat_numeral]

/-- Counterexample to claim C2 as stated: at angle 0 with the default
1000/2000 us calibration and wrap 65535, the code truncates 3276.8 to 3276
while the spec formula rounds it to 3277. -/
theorem c2_round_counterexample :
    angle_to_level 0 (some ⟨2, 1, 0, 65535, 1000, 2000, true, true⟩) = 3276 ∧
    angleToLevel_specRound 0 1000 2000 65535 = 3277 := by
  constructor
  · rw [angle_to_level]
    norm_num [SERVO_PWM_FREQ_HZ, int_toNat_numeral]
  · rw [angleToLevel_specRound]
    norm_num [SERVO_PWM_FREQ_HZ, round_eq, int_toNat_numeral]

/-- Claim C2 (amended): for every angle and servo entry, angle_to_level
saturates the angle at 180, interpolates the pulse width and computes the
level by the truncating C cast (reduced to uint16_t) of
pulseUs / periodUs * (wrapValue + 1), clamped to wrapValue, so the result
never exceeds wrapValue; a null or uninitialized servo reference yields 0. -/
theorem c2_angle_to_level_amended (a : Nat) (s : ServoInfo) :
    angle_to_level a none = 0 ∧
    (s.is_initialized = false → angle_to_level a (some s) = 0) ∧
    (s.is_initialized = true →
      angle_to_level a (some s)
        = angleToLevel_trunc a s.min_pulse_us s.max_pulse_us s.wrap_val) ∧
    angle_to_level a (some s) ≤ s.wrap_val := by
  refine ⟨rfl, ?_, ?_, ?_⟩
  · intro h; simp [angle_to_level, h]
  · intro h; exact angle_to_level_eq_trunc a s h
  · rw [angle_to_level]
    by_cases h : s.is_initialized = false
    · simp [h]
    · simp only [h, if_false]
      split_ifs <;> omega

/-- Witness for C2: angle 90 on the default calibration follows the
truncating formula and stays below the wrap value. -/
theorem c2_angle_to_level_amended_witness :
    angle_to_level 90 (some ⟨2, 1, 0, 65535, 1000, 2000, true, true⟩)
      = angleToLevel_trunc 90 1000 2000 65535 ∧
    angle_to_level 90 (some ⟨2, 1, 0, 65535, 1000, 2000, true, true⟩)
      ≤ 65535 :=
  ⟨(c2_angle_to_level_amended 90 ⟨2, 1, 0, 65535, 1000, 2000, true, true⟩).2.2.1
      rfl,
    (c2_angle_to_level_amended 90 ⟨2, 1, 0, 65535, 1000, 2000, true, true⟩).2.2.2⟩

/-- Claim C5: calculate_pwm_params fails when the system clock is 0 and when
the ideal divider exceeds 255.9375; on every success the integer divider part
is in [1, 255] and the fractional part in [0, 15], the ideal divider having
been raised to exactly 1 whenever it was below 1. -/
theorem c5_divider_ranges :
    (∀ f, calculate_pwm_params 0 f = none) ∧
    (∀ s f, MAX_DIVIDER < ideal_divider s f →
      calculate_pwm_params s f = none) ∧
    (∀ s f w di df, calculate_pwm_params s f = some (w, di, df) →
      1 ≤ di ∧ di ≤ 255 ∧ df ≤ 15 ∧
      (ideal_divider s f < 1 → di = 1 ∧ df = 0)) := by
  refine ⟨?_, ?_, ?_⟩
  · intro f; simp [calculate_pwm_params]
  · intro s f h
    by_cases hs : s = 0
    · simp [calculate_pwm_params, hs]
    by_cases hf : f = 0
    · simp [calculate_pwm_params, hs, hf]
    have h1 : ¬ ideal_divider s f < 1 := by
      rw [not_lt]
      calc (1:ℚ) ≤ MAX_DIVIDER := by norm_num [MAX_DIVIDER]
        _ ≤ ideal_divider s f := le_of_lt h
    simp [calculate_pwm_params, hs, hf, h1, h]
  · intro s f w di df h
    obtain ⟨hs, hf, hmax, hdi, hdf⟩ := calculate_pwm_params_success_shape h
    set d : ℚ := if ideal_divider s f < 1 then (1:ℚ) else ideal_divider s f
      with hd
    have h1 : (1:ℚ) ≤ d := by
      rw [hd]
      split
      · exact le_refl 1
      · exact not_lt.mp (by assumption)
    obtain ⟨b1, b2, b3⟩ := divider_int_frac_bounds d h1 hmax
    refine ⟨hdi ▸ b1, hdi ▸ b2, hdf ▸ b3, ?_⟩
    intro hlt
    have hdeq : d = 1 := by rw [hd, if_pos hlt]
    rw [hdeq] at hdi hdf
    rw [hdi, hdf]
    norm_num

/-- Witness for C5: a zero clock fails, an overwide divider (900 MHz) fails,
and at 125 MHz the returned divider parts are in range. -/
theorem c5_divider_ranges_witness :
    calculate_pwm_params 0 50 = none ∧
    calculate_pwm_params 900000000 50 = none ∧
    (1 ≤ 38 ∧ 38 ≤ 255 ∧ 2 ≤ 15 ∧
      (ideal_divider 125000000 50 < 1 → 38 = 1 ∧ 2 = 0)) :=
  ⟨c5_divider_ranges.1 50,
    c5_divider_ranges.2.1 900000000 50
      (by norm_num [MAX_DIVIDER, ideal_divider]),
    c5_divider_ranges.2.2 125000000 50 36 38 2 (by
      rw [calculate_pwm_params]
      norm_num [ideal_divider, MAX_DIVIDER, int_toNat_numeral])⟩

/-- Counterexample to claim C7 as stated: with the valid calibration
10000 < 30000 us and wrap 65535, angle 90 lands exactly on the period,
the uint16_t cast wraps 65536 to 0, and the level drops from 65171 (at 89)
to 0 (at 90). -/
theorem c7_monotonicity_counterexample :
    (0 < 10000 ∧ 10000 < 30000 ∧ (89:Nat) ≤ 90) ∧
    angle_to_level 89 (some ⟨2, 1, 0, 65535, 10000, 30000, true, true⟩)
      = 65171 ∧
    angle_to_level 90 (some ⟨2, 1, 0, 65535, 10000, 30000, true, true⟩)
      = 0 ∧
    ¬ (angle_to_level 89 (some ⟨2, 1, 0, 65535, 10000, 30000, true, true⟩)
        ≤ angle_to_level 90
          (some ⟨2, 1, 0, 65535, 10000, 30000, true, true⟩)) := by
  have h89 : angle_to_level 89
      (some ⟨2, 1, 0, 65535, 10000, 30000, true, true⟩) = 65171 := by
    rw [angle_to_level]
    norm_num [SERVO_PWM_FREQ_HZ, int_toNat_numeral]
  have h90 : angle_to_level 90
      (some ⟨2, 1, 0, 65535, 10000, 30000, true, true⟩) = 0 := by
    rw [angle_to_level]
    norm_num [SERVO_PWM_FREQ_HZ, int_toNat_numeral]
  refine ⟨⟨by norm_num, by norm_num, by norm_num⟩, h89, h90, ?_⟩
  rw [h89, h90]
  norm_num

/-- Claim C7 (amended): for a fixed initialized entry with valid calibration
0 < minPulseUs < maxPulseUs whose maxPulseUs lies strictly below the 20000 us
period (and a wrap value representable in 16 bits), angle_to_level is
monotonically non-decreasing in the angle. -/
theorem c7_monotonicity_amended (s : ServoInfo) (a1 a2 : Nat)
    (hinit : s.is_initialized = true) (hmn : 0 < s.min_pulse_us)
    (hrange : s.min_pulse_us < s.max_pulse_us) (hmx : s.max_pulse_us < 20000)
    (hwrap : s.wrap_val ≤ 65535) (h12 : a1 ≤ a2) :
    angle_to_level a1 (some s) ≤ angle_to_level a2 (some s) := by
  rw [angle_to_level_eq_trunc a1 s hinit, angle_to_level_eq_trunc a2 s hinit]
  exact angleToLevel_trunc_mono hrange hmx hwrap h12

/-- Witness for C7: the default calibration is monotone from 30 to 60
degrees. -/
theorem c7_monotonicity_amended_witness :
    angle_to_level 30 (some ⟨2, 1, 0, 65535, 1000, 2000, true, true⟩)
      ≤ angle_to_level 60 (some ⟨2, 1, 0, 65535, 1000, 2000, true, true⟩) :=
  c7_monotonicity_amended ⟨2, 1, 0, 65535, 1000, 2000, true, true⟩ 30 60
    rfl (by norm_num) (by norm_num) (by norm_num) (by norm_num) (by norm_num)

end CanSatServo
